import Mathlib

/-!
Verification of the Ychat room-session and message-delivery engine
(`server/index.js`) against its behavioural specification.

The server is embedded shallowly:
* the Mongo `Message` collection is a list of `Message` records, with the
  24-hour TTL index modelled by `expireSweep` and `Message.find().sort()`
  by `historyQuery`;
* the `roomUsers` map and the `readReceipts` map are association lists;
* each socket is a `Conn` carrying the socket.io room set and the
  `socket.roomName` / `socket.username` / `socket.avatar` fields;
* each event handler is a pure function from the inputs (and the outcome
  of the one asynchronous Mongo call, a `Bool`) to the new server state
  plus a list of emitted events, and `recipients` gives socket.io's
  delivery semantics for each kind of emit.
-/

namespace Ychat

/-- A persisted chat message, mirroring `messageSchema`: `_id` (as string),
`roomName`, `user`, optional `avatar`, `text`, `createdAt` (ms since epoch)
and the `readBy` username list. -/
structure Message where
  id : String
  roomName : String
  user : String
  avatar : Option String
  text : String
  createdAt : Nat
  readBy : List String
deriving Repr, DecidableEq

/-- The TTL of the `createdAt` index: `expires: '24h'`, in milliseconds. -/
def ttlMs : Nat := 24 * 60 * 60 * 1000

/-- Mongo's TTL monitor: a message whose age exceeds 24 hours is removed
from the collection. -/
def expireSweep (now : Nat) (store : List Message) : List Message :=
  store.filter (fun m => decide (now < m.createdAt + ttlMs))

/-- Comparison used by `.sort({ createdAt: 1 })`. -/
def createdLE (a b : Message) : Prop := a.createdAt ≤ b.createdAt

instance : DecidableRel createdLE :=
  fun a b => inferInstanceAs (Decidable (a.createdAt ≤ b.createdAt))

instance : IsTotal Message createdLE := ⟨fun a b => Nat.le_total a.createdAt b.createdAt⟩

instance : IsTrans Message createdLE := ⟨fun _ _ _ => Nat.le_trans⟩

/-- The history fetch `Message.find({ roomName }).sort({ createdAt: 1 })`:
all stored messages of the room, sorted by creation time ascending. -/
def historyQuery (store : List Message) (room : String) : List Message :=
  List.insertionSort createdLE (store.filter (fun m => m.roomName == room))

/-- C1: the history returned on join contains exactly the non-expired
messages of the room (all of them), is ordered by creation time ascending,
and is the empty sequence for a room with no messages. -/
theorem history_on_join (store : List Message) (room : String) (now : Nat) :
    (∀ m : Message, m ∈ historyQuery (expireSweep now store) room ↔
        m ∈ store ∧ m.roomName = room ∧ now < m.createdAt + ttlMs) ∧
    List.Sorted createdLE (historyQuery (expireSweep now store) room) ∧
    ((∀ m ∈ store, m.roomName ≠ room) → historyQuery (expireSweep now store) room = []) := by
  refine ⟨fun m => ?_, List.sorted_insertionSort _ _, fun h => ?_⟩
  · rw [historyQuery, (List.perm_insertionSort createdLE _).mem_iff, List.mem_filter,
      expireSweep, List.mem_filter]
    simp only [decide_eq_true_eq, beq_iff_eq]
    tauto
  · rw [historyQuery]
    have : (expireSweep now store).filter (fun m => m.roomName == room) = [] := by
      apply List.filter_eq_nil_iff.mpr
      intro m hm
      have hms : m ∈ store := List.mem_of_mem_filter hm
      simpa using h m hms
    rw [this]
    rfl

/-- Witness for `history_on_join` at a concrete store: a room with no
messages yields the empty history. -/
theorem history_on_join_witness :
    historyQuery (expireSweep 5 [⟨"m1", "lobby", "alice", none, "hi", 0, ["alice"]⟩]) "den" = [] :=
  (history_on_join [⟨"m1", "lobby", "alice", none, "hi", 0, ["alice"]⟩] "den" 5).2.2
    (by decide)

/-- An entry of a room's member list: the `{ username, avatar }` objects
pushed into `roomUsers[roomName]`. -/
structure Member where
  username : String
  avatar : Option String
deriving Repr, DecidableEq

/-- Lookup in a JavaScript-object-as-map, `obj[key]`: `none` when the key
is absent (`undefined`). -/
def getAssoc {α : Type} (l : List (String × α)) (k : String) : Option α :=
  (l.find? (fun p => p.1 == k)).map (fun p => p.2)

/-- Assignment `obj[key] = v`: overwrites in place when the key is present,
otherwise appends the new binding. -/
def setAssoc {α : Type} (l : List (String × α)) (k : String) (v : α) : List (String × α) :=
  match l with
  | [] => [(k, v)]
  | p :: rest => if p.1 == k then (k, v) :: rest else p :: setAssoc rest k v

/-- The dedup in `joinRoom`: push `{ username, avatar }` only when no entry
with that username is already present
(`if (!roomUsers[roomName].find(u => u.username === username))`). -/
def addMember (l : List Member) (username : String) (avatar : Option String) : List Member :=
  if l.any (fun u => u.username == username) then l else l ++ [⟨username, avatar⟩]

/-- The `roomUsers` update performed by `joinRoom`: create the room's list
when absent, then conditionally push the member. -/
def registryJoin (reg : List (String × List Member)) (room username : String)
    (avatar : Option String) : List (String × List Member) :=
  setAssoc reg room (addMember ((getAssoc reg room).getD []) username avatar)

/-- A connected socket: its id, the socket.io rooms it joined via
`socket.join`, and the `socket.roomName` / `socket.username` /
`socket.avatar` fields set by the `joinRoom` handler. -/
structure Conn where
  sid : Nat
  rooms : List String
  roomName : Option String
  username : Option String
  avatar : Option String
deriving Repr, DecidableEq

/-- The payloads the server emits. -/
inductive EventMsg where
  | joinedRoom (roomName : String) (messages : List Message)
  | usersList (users : List Member)
  | joinError (message : String)
  | chatMessage (msg : Message)
  | errorEv (message : String)
  | readReceipt (messageId : String) (readBy : List String)
  | userTyping (username : String)
  | userStopTyping (username : String)
deriving Repr, DecidableEq

/-- An emit instruction: `socket.emit` (to one socket), `io.to(room).emit`
(to every socket in the room) or `socket.to(room).emit` (to every socket in
the room except the emitting one). -/
inductive Emit where
  | toSelf (sid : Nat) (ev : EventMsg)
  | toRoom (room : String) (ev : EventMsg)
  | toRoomExceptSelf (sid : Nat) (room : String) (ev : EventMsg)
deriving Repr, DecidableEq

/-- Socket.io delivery: the socket ids that receive a given emit, among the
currently connected sockets `conns`. -/
def recipients (conns : List Conn) : Emit → List Nat
  | .toSelf sid _ => [sid]
  | .toRoom room _ => (conns.filter (fun c => c.rooms.contains room)).map (fun c => c.sid)
  | .toRoomExceptSelf sid room _ =>
      (conns.filter (fun c => c.rooms.contains room && c.sid != sid)).map (fun c => c.sid)

/-- The process-wide mutable state: the Mongo collection, the `roomUsers`
map and the in-memory `readReceipts` map. -/
structure ServerState where
  store : List Message
  roomUsers : List (String × List Member)
  readReceipts : List (String × List String)
deriving Repr, DecidableEq

/-- Payload of the `joinRoom` event. -/
structure JoinInput where
  roomName : String
  username : String
  avatar : Option String
deriving Repr, DecidableEq

/-- The `joinRoom` handler. `socket.join`, the `socket.*` assignments and
the `roomUsers` update all happen before the awaited `Message.find`; the
`dbOk` flag is the outcome of that call. On success the handler emits
`joinedRoom` to the requester and broadcasts `usersList`; on failure it
emits `joinError` to the requester only. -/
def joinRoomHandler (dbOk : Bool) (st : ServerState) (conn : Conn) (inp : JoinInput) :
    ServerState × Conn × List Emit :=
  let conn' : Conn :=
    { conn with
      rooms := if conn.rooms.contains inp.roomName then conn.rooms
               else conn.rooms ++ [inp.roomName],
      roomName := some inp.roomName,
      username := some inp.username,
      avatar := inp.avatar }
  let reg' := registryJoin st.roomUsers inp.roomName inp.username inp.avatar
  let st' : ServerState := { st with roomUsers := reg' }
  if dbOk then
    (st', conn',
      [Emit.toSelf conn.sid (.joinedRoom inp.roomName (historyQuery st.store inp.roomName)),
       Emit.toRoom inp.roomName (.usersList ((getAssoc reg' inp.roomName).getD []))])
  else
    (st', conn', [Emit.toSelf conn.sid (.joinError "Error retrieving chat history.")])

/-- Payload of the `chatMessage` event as the client sends it; the handler
destructures only `{ roomName, user, text, avatar }`, so `image` is listed
here to record that it is dropped. -/
structure ChatInput where
  roomName : String
  user : String
  text : String
  avatar : Option String
  image : Option String
deriving Repr, DecidableEq

/-- Mongoose validation of `messageSchema` run by `.save()`: `required:
true` on a `String` path demands a non-empty string (mongoose's
`checkRequired` for strings tests `v.length > 0`), so `roomName`, `user`
and `text` must all be non-empty; `avatar` is optional. -/
def validateMessage (roomName user text : String) : Bool :=
  decide (0 < roomName.length) && decide (0 < user.length) && decide (0 < text.length)

/-- The `chatMessage` handler. A new message is built with `readBy: [user]`
and saved; the save succeeds when the store is reachable (`dbOk`) and
validation passes. On success the saved message is appended, the
`readReceipts` entry is set to its `readBy`, and the message is broadcast
to the room; on any save failure only the sender gets an `error` event and
nothing else changes. -/
def chatMessageHandler (dbOk : Bool) (freshId : String) (now : Nat) (st : ServerState)
    (conn : Conn) (inp : ChatInput) : ServerState × List Emit :=
  if dbOk && validateMessage inp.roomName inp.user inp.text then
    let msg : Message :=
      ⟨freshId, inp.roomName, inp.user, inp.avatar, inp.text, now, [inp.user]⟩
    ({ st with
        store := st.store ++ [msg],
        readReceipts := setAssoc st.readReceipts freshId [inp.user] },
      [Emit.toRoom inp.roomName (.chatMessage msg)])
  else
    (st, [Emit.toSelf conn.sid (.errorEv "Failed to send message.")])

/-- Payload of the `messageRead` event. -/
structure ReadInput where
  messageId : String
  roomName : String
  username : String
deriving Repr, DecidableEq

/-- The read-receipt update: create `readReceipts[messageId] = []` when the
key is absent, then push `username` unless already included. -/
def recordRead (r : List (String × List String)) (id u : String) :
    List (String × List String) :=
  let cur := (getAssoc r id).getD []
  setAssoc r id (if cur.contains u then cur else cur ++ [u])

/-- The `messageRead` handler: update the in-memory map and broadcast the
full updated reader set to the room. It never consults the message store
and never checks whether the message id exists. -/
def messageReadHandler (st : ServerState) (inp : ReadInput) : ServerState × List Emit :=
  let r' := recordRead st.readReceipts inp.messageId inp.username
  ({ st with readReceipts := r' },
    [Emit.toRoom inp.roomName
      (.readReceipt inp.messageId ((getAssoc r' inp.messageId).getD []))])

/-- The `typing` handler: `socket.to(roomName).emit('userTyping', ...)`. -/
def typingHandler (conn : Conn) (room username : String) : List Emit :=
  [Emit.toRoomExceptSelf conn.sid room (.userTyping username)]

/-- The `stopTyping` handler:
`socket.to(roomName).emit('userStopTyping', ...)`. -/
def stopTypingHandler (conn : Conn) (room username : String) : List Emit :=
  [Emit.toRoomExceptSelf conn.sid room (.userStopTyping username)]

/-- The `disconnect` handler: when the socket has a recorded room and
username and that room exists in `roomUsers`, filter the username out of
that room's list and broadcast the updated list. -/
def disconnectHandler (st : ServerState) (conn : Conn) : ServerState × List Emit :=
  match conn.roomName, conn.username with
  | some room, some name =>
    match getAssoc st.roomUsers room with
    | some l =>
      let l' := l.filter (fun u => u.username != name)
      ({ st with roomUsers := setAssoc st.roomUsers room l' },
        [Emit.toRoom room (.usersList l')])
    | none => (st, [])
  | _, _ => (st, [])

/-! Association-list lemmas for the JS-object maps. -/

theorem getAssoc_setAssoc_self {α : Type} (l : List (String × α)) (k : String) (v : α) :
    getAssoc (setAssoc l k v) k = some v := by
  induction l with
  | nil => simp [getAssoc, setAssoc]
  | cons p rest ih =>
    by_cases h : p.1 = k
    · have hb : (p.1 == k) = true := by simpa using h
      simp [setAssoc, getAssoc, List.find?_cons, hb]
    · have hb : (p.1 == k) = false := by simpa using h
      simp only [setAssoc, hb, Bool.false_eq_true, if_false]
      simpa [getAssoc, List.find?_cons, hb] using ih

theorem getAssoc_setAssoc_ne {α : Type} (l : List (String × α)) (k k' : String) (v : α)
    (h : k' ≠ k) : getAssoc (setAssoc l k v) k' = getAssoc l k' := by
  have hkk : (k == k') = false := by simpa using Ne.symm h
  induction l with
  | nil => simp [getAssoc, setAssoc, List.find?_cons, hkk]
  | cons p rest ih =>
    by_cases hp : p.1 = k
    · have hb : (p.1 == k) = true := by simpa using hp
      have hb' : (p.1 == k') = false := by simpa using hp ▸ Ne.symm h
      simp [setAssoc, getAssoc, List.find?_cons, hb, hb', hkk]
    · have hb : (p.1 == k) = false := by simpa using hp
      simp only [setAssoc, hb, Bool.false_eq_true, if_false]
      cases hc : (p.1 == k') with
      | true => simp [getAssoc, List.find?_cons, hc]
      | false => simpa [getAssoc, List.find?_cons, hc] using ih

theorem setAssoc_setAssoc_self {α : Type} (l : List (String × α)) (k : String) (v w : α) :
    setAssoc (setAssoc l k v) k w = setAssoc l k w := by
  induction l with
  | nil => simp [setAssoc]
  | cons p rest ih =>
    by_cases h : p.1 = k
    · have hb : (p.1 == k) = true := by simpa using h
      simp [setAssoc, hb]
    · have hb : (p.1 == k) = false := by simpa using h
      simp [setAssoc, hb, ih]

theorem setAssoc_eq_self {α : Type} (l : List (String × α)) (k : String) (v : α)
    (h : getAssoc l k = some v) : setAssoc l k v = l := by
  induction l with
  | nil => simp [getAssoc] at h
  | cons p rest ih =>
    by_cases hp : p.1 = k
    · have hb : (p.1 == k) = true := by simpa using hp
      simp only [getAssoc, List.find?_cons, hb, if_true] at h
      have hv : p.2 = v := by simpa using h
      simp only [setAssoc, hb, if_true]
      rw [← hv, ← hp]
    · have hb : (p.1 == k) = false := by simpa using hp
      simp only [getAssoc, List.find?_cons, hb, Bool.false_eq_true, if_false] at h
      simp only [setAssoc, hb, Bool.false_eq_true, if_false]
      rw [ih h]

theorem setAssoc_of_getAssoc_none {α : Type} (l : List (String × α)) (k : String) (v : α)
    (h : getAssoc l k = none) : setAssoc l k v = l ++ [(k, v)] := by
  induction l with
  | nil => simp [setAssoc]
  | cons p rest ih =>
    by_cases hp : p.1 = k
    · have hb : (p.1 == k) = true := by simpa using hp
      simp [getAssoc, List.find?_cons, hb] at h
    · have hb : (p.1 == k) = false := by simpa using hp
      simp only [getAssoc, List.find?_cons, hb, Bool.false_eq_true, if_false] at h
      simp only [setAssoc, hb, Bool.false_eq_true, if_false, List.cons_append]
      rw [ih h]

/-- C4: the mark-read operation is idempotent — running the `messageRead`
handler twice with the same arguments produces the same state (in
particular the same reader set) and the same broadcast as running it
once. -/
theorem markRead_idempotent (st : ServerState) (inp : ReadInput) :
    messageReadHandler (messageReadHandler st inp).1 inp = messageReadHandler st inp := by
  have hval : ∀ cur : List String,
      ((if cur.contains inp.username then cur else cur ++ [inp.username]).contains
        inp.username) = true := by
    intro cur
    by_cases h : cur.contains inp.username = true
    · simp only [if_pos h]
      exact h
    · simp only [if_neg h]
      simp
  simp only [messageReadHandler, recordRead]
  rw [getAssoc_setAssoc_self]
  simp only [Option.getD_some]
  rw [if_pos (hval _), setAssoc_setAssoc_self, getAssoc_setAssoc_self]
  simp only [Option.getD_some]

/-- A sequence of `joinRoom` calls for one room and one username, each with
some avatar, starting from the empty registry (the room does not exist
before the first join). -/
def joinSeq (room u : String) (avs : List (Option String)) : List (String × List Member) :=
  avs.foldl (fun reg a => registryJoin reg room u a) []

theorem registryJoin_absorb (reg : List (String × List Member)) (room u : String)
    (a : Option String) (l : List Member) (hl : getAssoc reg room = some l)
    (hu : l.any (fun m => m.username == u) = true) :
    registryJoin reg room u a = reg := by
  rw [registryJoin, hl, Option.getD_some, addMember, if_pos hu]
  exact setAssoc_eq_self reg room l hl

theorem joinSeq_cons (room u : String) (a : Option String) (rest : List (Option String)) :
    joinSeq room u (a :: rest) = [(room, [⟨u, a⟩])] := by
  have h0 : registryJoin [] room u a = [(room, [⟨u, a⟩])] := by
    simp [registryJoin, getAssoc, setAssoc, addMember]
  rw [joinSeq, List.foldl_cons, h0]
  induction rest with
  | nil => rfl
  | cons b bs ih =>
    rw [List.foldl_cons,
      registryJoin_absorb _ room u b [⟨u, a⟩] (by simp [getAssoc]) (by simp)]
    exact ih

/-- C2: any non-empty sequence of joins to the same room with the same
username leaves that room's member list with exactly one entry for that
username — the dedup check makes join idempotent. -/
theorem join_idempotent (room u : String) (avs : List (Option String)) (h : avs ≠ []) :
    ((getAssoc (joinSeq room u avs) room).getD []).countP
      (fun m => m.username == u) = 1 := by
  match avs, h with
  | a :: rest, _ =>
    rw [joinSeq_cons]
    simp [getAssoc]

/-- Witness for `join_idempotent`: three repeated joins of `alice` (with
changing avatars) to `lobby` leave one `alice` entry. -/
theorem join_idempotent_witness :
    ((getAssoc (joinSeq "lobby" "alice" [none, some "a.png", none]) "lobby").getD []).countP
      (fun m => m.username == "alice") = 1 :=
  join_idempotent "lobby" "alice" [none, some "a.png", none] (by decide)

/-- C3: when persistence fails during send-message, the server state is
unchanged (no message stored, no receipts touched), the only emitted event
is an `error` to the sender's own socket, every emitted event reaches
exactly the sender, and no other connection receives anything. -/
theorem chat_failure_isolated (freshId : String) (now : Nat) (st : ServerState)
    (conn : Conn) (inp : ChatInput) (conns : List Conn) :
    (chatMessageHandler false freshId now st conn inp).1 = st ∧
    (chatMessageHandler false freshId now st conn inp).2 =
      [Emit.toSelf conn.sid (.errorEv "Failed to send message.")] ∧
    (∀ e ∈ (chatMessageHandler false freshId now st conn inp).2,
      recipients conns e = [conn.sid]) ∧
    ∀ c ∈ conns, c.sid ≠ conn.sid →
      ∀ e ∈ (chatMessageHandler false freshId now st conn inp).2,
        c.sid ∉ recipients conns e := by
  refine ⟨rfl, rfl, ?_, ?_⟩
  · intro e he
    simp only [chatMessageHandler, Bool.false_and, Bool.false_eq_true, if_false,
      List.mem_singleton] at he
    subst he
    rfl
  · intro c _ hne e he
    simp only [chatMessageHandler, Bool.false_and, Bool.false_eq_true, if_false,
      List.mem_singleton] at he
    subst he
    simpa [recipients] using hne

/-- Witness for `chat_failure_isolated`: with alice (socket 1) and bob
(socket 2) in `lobby`, a failed send by alice reaches socket 1 only. -/
theorem chat_failure_isolated_witness :
    (chatMessageHandler false "m1" 0 ⟨[], [], []⟩
        ⟨1, ["lobby"], some "lobby", some "alice", none⟩
        ⟨"lobby", "alice", "hi", none, none⟩).1 = (⟨[], [], []⟩ : ServerState) ∧
    (2 : Nat) ∉ recipients
        [⟨1, ["lobby"], some "lobby", some "alice", none⟩,
         ⟨2, ["lobby"], some "lobby", some "bob", none⟩]
        (Emit.toSelf 1 (.errorEv "Failed to send message.")) := by
  have h := chat_failure_isolated "m1" 0 ⟨[], [], []⟩
    ⟨1, ["lobby"], some "lobby", some "alice", none⟩
    ⟨"lobby", "alice", "hi", none, none⟩
    [⟨1, ["lobby"], some "lobby", some "alice", none⟩,
     ⟨2, ["lobby"], some "lobby", some "bob", none⟩]
  exact ⟨h.1, h.2.2.2 ⟨2, ["lobby"], some "lobby", some "bob", none⟩ (by decide)
    (by decide) (Emit.toSelf 1 (.errorEv "Failed to send message.")) (by decide)⟩

/-- C7: a `typing` or `stopTyping` event is forwarded to every other
connection in the room and never to the originating connection. -/
theorem typing_excludes_origin (conn : Conn) (room u : String) (conns : List Conn) :
    (∀ e ∈ typingHandler conn room u,
      conn.sid ∉ recipients conns e ∧
      ∀ c ∈ conns, c.rooms.contains room = true → c.sid ≠ conn.sid →
        c.sid ∈ recipients conns e) ∧
    ∀ e ∈ stopTypingHandler conn room u,
      conn.sid ∉ recipients conns e ∧
      ∀ c ∈ conns, c.rooms.contains room = true → c.sid ≠ conn.sid →
        c.sid ∈ recipients conns e := by
  have main : ∀ ev : EventMsg,
      conn.sid ∉ recipients conns (.toRoomExceptSelf conn.sid room ev) ∧
      ∀ c ∈ conns, c.rooms.contains room = true → c.sid ≠ conn.sid →
        c.sid ∈ recipients conns (.toRoomExceptSelf conn.sid room ev) := by
    intro ev
    constructor
    · intro hmem
      simp only [recipients, List.mem_map, List.mem_filter, Bool.and_eq_true,
        bne_iff_ne] at hmem
      obtain ⟨c, ⟨_, _, hne⟩, hsid⟩ := hmem
      exact hne hsid
    · intro c hc hroom hne
      simp only [recipients, List.mem_map, List.mem_filter, Bool.and_eq_true,
        bne_iff_ne]
      exact ⟨c, ⟨hc, hroom, hne⟩, rfl⟩
  constructor
  · intro e he
    simp only [typingHandler, List.mem_singleton] at he
    subst he
    exact main _
  · intro e he
    simp only [stopTypingHandler, List.mem_singleton] at he
    subst he
    exact main _

/-- Witness for `typing_excludes_origin`: alice (socket 1) types in
`lobby`; socket 1 gets nothing, bob's socket 2 gets the notification. -/
theorem typing_excludes_origin_witness :
    (1 : Nat) ∉ recipients
        [⟨1, ["lobby"], some "lobby", some "alice", none⟩,
         ⟨2, ["lobby"], some "lobby", some "bob", none⟩]
        (Emit.toRoomExceptSelf 1 "lobby" (.userTyping "alice")) ∧
    (2 : Nat) ∈ recipients
        [⟨1, ["lobby"], some "lobby", some "alice", none⟩,
         ⟨2, ["lobby"], some "lobby", some "bob", none⟩]
        (Emit.toRoomExceptSelf 1 "lobby" (.userTyping "alice")) := by
  have h := (typing_excludes_origin ⟨1, ["lobby"], some "lobby", some "alice", none⟩
    "lobby" "alice"
    [⟨1, ["lobby"], some "lobby", some "alice", none⟩,
     ⟨2, ["lobby"], some "lobby", some "bob", none⟩]).1
    (Emit.toRoomExceptSelf 1 "lobby" (.userTyping "alice")) (by decide)
  exact ⟨h.1, h.2 ⟨2, ["lobby"], some "lobby", some "bob", none⟩ (by decide)
    (by decide) (by decide)⟩

/-- Counterexample to C5: with an empty store (so the id `m9` is unknown)
the `messageRead` handler does create a reader set (`["bob"]`) and does
broadcast a `readReceipt` to the room — the claimed `NotFoundError` path
does not exist in the handler. -/
theorem markRead_unknown_cex :
    (messageReadHandler ⟨[], [], []⟩ ⟨"m9", "lobby", "bob"⟩).1.readReceipts =
        [("m9", ["bob"])] ∧
    (messageReadHandler ⟨[], [], []⟩ ⟨"m9", "lobby", "bob"⟩).2 =
        [Emit.toRoom "lobby" (.readReceipt "m9" ["bob"])] := by
  constructor <;> rfl

/-- Amended C5: a mark-read for a message id with no receipts entry (in
particular any unknown id — the handler never checks the store) creates a
fresh reader set holding just the username, broadcasts the `readReceipt`
to the room, and leaves the message store untouched; no error arises. -/
theorem markRead_unknown_creates (st : ServerState) (inp : ReadInput)
    (h : getAssoc st.readReceipts inp.messageId = none) :
    (messageReadHandler st inp).1.readReceipts =
        st.readReceipts ++ [(inp.messageId, [inp.username])] ∧
    (messageReadHandler st inp).2 =
        [Emit.toRoom inp.roomName (.readReceipt inp.messageId [inp.username])] ∧
    (messageReadHandler st inp).1.store = st.store := by
  have hrr : recordRead st.readReceipts inp.messageId inp.username =
      st.readReceipts ++ [(inp.messageId, [inp.username])] := by
    rw [recordRead, h]
    simp only [Option.getD_none, List.contains_nil, Bool.false_eq_true, if_false,
      List.nil_append]
    exact setAssoc_of_getAssoc_none _ _ _ h
  refine ⟨?_, ?_, rfl⟩
  · simpa [messageReadHandler] using hrr
  · simp only [messageReadHandler, recordRead, h, Option.getD_none, List.contains_nil,
      Bool.false_eq_true, if_false, List.nil_append, getAssoc_setAssoc_self,
      Option.getD_some]

/-- Witness for `markRead_unknown_creates` at a concrete state. -/
theorem markRead_unknown_creates_witness :
    (messageReadHandler ⟨[], [], [("m1", ["alice"])]⟩ ⟨"m2", "lobby", "bob"⟩).1.readReceipts =
        [("m1", ["alice"]), ("m2", ["bob"])] ∧
    (messageReadHandler ⟨[], [], [("m1", ["alice"])]⟩ ⟨"m2", "lobby", "bob"⟩).2 =
        [Emit.toRoom "lobby" (.readReceipt "m2" ["bob"])] ∧
    (messageReadHandler ⟨[], [], [("m1", ["alice"])]⟩ ⟨"m2", "lobby", "bob"⟩).1.store = [] :=
  markRead_unknown_creates ⟨[], [], [("m1", ["alice"])]⟩ ⟨"m2", "lobby", "bob"⟩ (by decide)

/-- Counterexample to C6: a join with the store unreachable still registers
the connection — `socket.roomName` is set to the requested room and the
member list of `lobby` gains the requester, because registration happens
before the awaited history fetch. The connection does not remain in the
`Connected` state. -/
theorem join_failure_cex :
    ((joinRoomHandler false ⟨[], [], []⟩ ⟨7, [], none, none, none⟩
        ⟨"lobby", "alice", none⟩).2.1).roomName = some "lobby" ∧
    (getAssoc (joinRoomHandler false ⟨[], [], []⟩ ⟨7, [], none, none, none⟩
        ⟨"lobby", "alice", none⟩).1.roomUsers "lobby").getD [] = [⟨"alice", none⟩] := by
  constructor <;> rfl

/-- Amended C6: on a join whose history fetch fails, only the requester is
notified, with the distinguishable `joinError` event — but the connection
does not stay un-joined: its room/username association is overwritten and
an entry with its username is already in the room's member list. -/
theorem join_failure_registers (st : ServerState) (conn : Conn) (inp : JoinInput)
    (conns : List Conn) :
    (joinRoomHandler false st conn inp).2.2 =
      [Emit.toSelf conn.sid (.joinError "Error retrieving chat history.")] ∧
    (∀ e ∈ (joinRoomHandler false st conn inp).2.2, recipients conns e = [conn.sid]) ∧
    (joinRoomHandler false st conn inp).2.1.roomName = some inp.roomName ∧
    (joinRoomHandler false st conn inp).2.1.username = some inp.username ∧
    ∃ m ∈ (getAssoc (joinRoomHandler false st conn inp).1.roomUsers inp.roomName).getD [],
      m.username = inp.username := by
  refine ⟨rfl, ?_, rfl, rfl, ?_⟩
  · intro e he
    simp only [joinRoomHandler, Bool.false_eq_true, if_false, List.mem_singleton] at he
    subst he
    rfl
  · have hreg : getAssoc (joinRoomHandler false st conn inp).1.roomUsers inp.roomName =
        some (addMember ((getAssoc st.roomUsers inp.roomName).getD [])
          inp.username inp.avatar) := by
      simp only [joinRoomHandler, Bool.false_eq_true, if_false, registryJoin]
      exact getAssoc_setAssoc_self _ _ _
    rw [hreg, Option.getD_some, addMember]
    by_cases hany : (((getAssoc st.roomUsers inp.roomName).getD []).any
        (fun m => m.username == inp.username)) = true
    · rw [if_pos hany]
      obtain ⟨m, hm, hmu⟩ := List.any_eq_true.mp hany
      exact ⟨m, hm, by simpa using hmu⟩
    · rw [if_neg hany]
      exact ⟨⟨inp.username, inp.avatar⟩, by simp⟩

/-- Witness for `join_failure_registers` at a concrete state. -/
theorem join_failure_registers_witness :
    (joinRoomHandler false ⟨[], [], []⟩ ⟨7, [], none, none, none⟩
        ⟨"lobby", "alice", none⟩).2.2 =
      [Emit.toSelf 7 (.joinError "Error retrieving chat history.")] ∧
    (joinRoomHandler false ⟨[], [], []⟩ ⟨7, [], none, none, none⟩
        ⟨"lobby", "alice", none⟩).2.1.roomName = some "lobby" ∧
    ∃ m ∈ (getAssoc (joinRoomHandler false ⟨[], [], []⟩ ⟨7, [], none, none, none⟩
        ⟨"lobby", "alice", none⟩).1.roomUsers "lobby").getD [],
      m.username = "alice" := by
  have h := join_failure_registers ⟨[], [], []⟩ ⟨7, [], none, none, none⟩
    ⟨"lobby", "alice", none⟩ []
  exact ⟨h.1, h.2.2.1, h.2.2.2.2⟩

/-- C8 (divergence witness): the repository's own client sends image
messages as `{ text: "", image: <blob> }`, and the spec admits an empty
text body — but the schema's `required: true` makes mongoose reject the
empty string, and neither the schema nor the handler's destructuring has
an `image` field. Such a send is rejected: nothing is persisted and only
the sender gets an `error` event, instead of the message being accepted
and broadcast. -/
theorem chat_empty_text_rejected :
    chatMessageHandler true "m1" 0 ⟨[], [], []⟩
        ⟨1, ["lobby"], some "lobby", some "alice", none⟩
        ⟨"lobby", "alice", "", none, some "img-blob"⟩ =
      ((⟨[], [], []⟩ : ServerState),
        [Emit.toSelf 1 (.errorEv "Failed to send message.")]) := by
  rfl

theorem mem_addMember (l : List Member) (u : String) (a : Option String) :
    ∃ m ∈ addMember l u a, m.username = u := by
  rw [addMember]
  by_cases hany : (l.any (fun m => m.username == u)) = true
  · rw [if_pos hany]
    obtain ⟨m, hm, hmu⟩ := List.any_eq_true.mp hany
    exact ⟨m, hm, by simpa using hmu⟩
  · rw [if_neg hany]
    exact ⟨⟨u, a⟩, by simp⟩

theorem getAssoc_registryJoin_self (reg : List (String × List Member)) (room u : String)
    (a : Option String) :
    getAssoc (registryJoin reg room u a) room =
      some (addMember ((getAssoc reg room).getD []) u a) :=
  getAssoc_setAssoc_self _ _ _

/-- C9: a join request from an already-joined connection for a different
room overwrites the connection's room/username association and puts its
username in the new room's member list, while the prior room's member
list is exactly what it was before. -/
theorem rejoin_overwrites (st : ServerState) (conn : Conn) (inp : JoinInput)
    (r1 : String) (_h1 : conn.roomName = some r1) (h2 : r1 ≠ inp.roomName) :
    (joinRoomHandler true st conn inp).2.1.roomName = some inp.roomName ∧
    (joinRoomHandler true st conn inp).2.1.username = some inp.username ∧
    (∃ m ∈ (getAssoc (joinRoomHandler true st conn inp).1.roomUsers inp.roomName).getD [],
        m.username = inp.username) ∧
    getAssoc (joinRoomHandler true st conn inp).1.roomUsers r1 =
      getAssoc st.roomUsers r1 := by
  refine ⟨rfl, rfl, ?_, ?_⟩
  · have hreg : getAssoc (joinRoomHandler true st conn inp).1.roomUsers inp.roomName =
        some (addMember ((getAssoc st.roomUsers inp.roomName).getD [])
          inp.username inp.avatar) :=
      getAssoc_registryJoin_self st.roomUsers inp.roomName inp.username inp.avatar
    rw [hreg, Option.getD_some]
    exact mem_addMember _ _ _
  · show getAssoc (registryJoin st.roomUsers inp.roomName inp.username inp.avatar) r1 =
      getAssoc st.roomUsers r1
    exact getAssoc_setAssoc_ne _ _ _ _ h2

/-- Witness for `rejoin_overwrites`: alice, joined to `den`, joins `lobby`;
her socket now points at `lobby`, `lobby` lists her, and `den`'s member
list is untouched. -/
theorem rejoin_overwrites_witness :
    (joinRoomHandler true ⟨[], [("den", [⟨"alice", none⟩])], []⟩
        ⟨7, ["den"], some "den", some "alice", none⟩ ⟨"lobby", "alice", none⟩).2.1.roomName =
      some "lobby" ∧
    (∃ m ∈ (getAssoc (joinRoomHandler true ⟨[], [("den", [⟨"alice", none⟩])], []⟩
        ⟨7, ["den"], some "den", some "alice", none⟩
        ⟨"lobby", "alice", none⟩).1.roomUsers "lobby").getD [],
      m.username = "alice") ∧
    getAssoc (joinRoomHandler true ⟨[], [("den", [⟨"alice", none⟩])], []⟩
        ⟨7, ["den"], some "den", some "alice", none⟩
        ⟨"lobby", "alice", none⟩).1.roomUsers "den" =
      getAssoc (⟨[], [("den", [⟨"alice", none⟩])], []⟩ : ServerState).roomUsers "den" := by
  have h := rejoin_overwrites ⟨[], [("den", [⟨"alice", none⟩])], []⟩
    ⟨7, ["den"], some "den", some "alice", none⟩ ⟨"lobby", "alice", none⟩
    "den" rfl (by decide)
  exact ⟨h.1, h.2.2.1, h.2.2.2⟩

/-- Folding a sequence of `messageRead` events over the server state. -/
def applyReads (st : ServerState) (ops : List ReadInput) : ServerState :=
  ops.foldl (fun s i => (messageReadHandler s i).1) st

theorem applyReads_store (st : ServerState) (ops : List ReadInput) :
    (applyReads st ops).store = st.store := by
  induction ops generalizing st with
  | nil => rfl
  | cons op rest ih =>
    rw [applyReads, List.foldl_cons]
    exact ih (messageReadHandler st op).1

/-- C10: the `messageRead` handler mutates only the in-memory receipts map,
never the persisted record: after a successful send whose fresh id is new
to the store, any number of mark-read operations leaves the store exactly
as the save left it, and every copy of that message a later history fetch
returns still carries the read-by set stored at save time — the author
alone. -/
theorem markRead_not_persisted (st : ServerState) (conn : Conn) (inp : ChatInput)
    (freshId : String) (now : Nat) (ops : List ReadInput) (room : String)
    (hok : validateMessage inp.roomName inp.user inp.text = true)
    (hfresh : ∀ m ∈ st.store, m.id ≠ freshId) :
    (applyReads (chatMessageHandler true freshId now st conn inp).1 ops).store =
      st.store ++ [⟨freshId, inp.roomName, inp.user, inp.avatar, inp.text, now, [inp.user]⟩] ∧
    ∀ m ∈ historyQuery
        (applyReads (chatMessageHandler true freshId now st conn inp).1 ops).store room,
      m.id = freshId → m.readBy = [inp.user] := by
  have hstore : (chatMessageHandler true freshId now st conn inp).1.store =
      st.store ++ [⟨freshId, inp.roomName, inp.user, inp.avatar, inp.text, now, [inp.user]⟩] := by
    simp only [chatMessageHandler, hok, Bool.true_and, if_true]
  have hall : (applyReads (chatMessageHandler true freshId now st conn inp).1 ops).store =
      st.store ++ [⟨freshId, inp.roomName, inp.user, inp.avatar, inp.text, now, [inp.user]⟩] := by
    rw [applyReads_store, hstore]
  refine ⟨hall, ?_⟩
  intro m hm hid
  rw [historyQuery, (List.perm_insertionSort createdLE _).mem_iff, List.mem_filter,
    hall] at hm
  rcases List.mem_append.mp hm.1 with hin | hnew
  · exact absurd hid (hfresh m hin)
  · rw [List.mem_singleton.mp hnew]

/-- Witness for `markRead_not_persisted`: alice sends `hi` to `lobby`
(fresh id `m1`), bob marks it read; the stored copy still has
`readBy = ["alice"]`. -/
theorem markRead_not_persisted_witness :
    (applyReads (chatMessageHandler true "m1" 0 ⟨[], [], []⟩
        ⟨1, ["lobby"], some "lobby", some "alice", none⟩
        ⟨"lobby", "alice", "hi", none, none⟩).1 [⟨"m1", "lobby", "bob"⟩]).store =
      [⟨"m1", "lobby", "alice", none, "hi", 0, ["alice"]⟩] ∧
    ∀ m ∈ historyQuery (applyReads (chatMessageHandler true "m1" 0 ⟨[], [], []⟩
        ⟨1, ["lobby"], some "lobby", some "alice", none⟩
        ⟨"lobby", "alice", "hi", none, none⟩).1 [⟨"m1", "lobby", "bob"⟩]).store "lobby",
      m.id = "m1" → m.readBy = ["alice"] := by
  have h := markRead_not_persisted ⟨[], [], []⟩
    ⟨1, ["lobby"], some "lobby", some "alice", none⟩
    ⟨"lobby", "alice", "hi", none, none⟩ "m1" 0 [⟨"m1", "lobby", "bob"⟩] "lobby"
    (by decide) (by decide)
  exact ⟨h.1, h.2⟩

end Ychat
